import Mathlib

/-!
Verification of the CQ-Lite code-quality analysis service.

Each Python component relevant to the checked claims is shallowly embedded
as an executable Lean definition, translated from the source files:

* `src/api/services/job_store.py` (in-memory job store),
* `src/api/routers/upload.py` and `src/api/routers/github.py` (submission
  handler and background worker),
* `src/backend/agents/workflow.py` (`check_analysis_completion` routing),
* `src/backend/agents/ai_review_agent.py` (issue merge step),
* `src/backend/analyzers/python_analyzer.py` (hardcoded-secret scan),
* `src/backend/tools/notion_tool.py` (block assembly for the page API),
* `src/api/services/dependency_graph.py` (graph structure builder),
* `src/api/services/analyzer.py` (severity-distribution percentages),
* `src/backend/analyzers/docker_analyzer.py` (Dockerfile checks) together
  with `src/backend/models/analysis_models.py` (issue model and enums).

Python dictionaries are modelled as association lists that preserve
insertion order, matching CPython dict semantics.  Calls into the external
`re` module are modelled by oracle parameters (a function deciding whether
a given pattern matches a given line) except where a regex is simple
enough to embed directly (the anchored keyword scans of the Dockerfile
analyzer).  Python `round(x, 1)` on the percentage computation is modelled
as exact rational rounding-to-tenths with ties to even.
-/

/-! ## Generic association-list helpers (CPython dict semantics) -/

/-- Ordered association-list lookup: first binding of the key wins. -/
def alist_lookup {β : Type} (k : String) : List (String × β) → Option β
  | [] => none
  | (k₀, v₀) :: rest => if k₀ = k then some v₀ else alist_lookup k rest

/-- Insert-or-replace preserving insertion order, as a CPython dict
assignment does: an existing key keeps its position, a fresh key is
appended at the end. -/
def alist_upsert {β : Type} (k : String) (v : β) : List (String × β) → List (String × β)
  | [] => [(k, v)]
  | (k₀, v₀) :: rest =>
    if k₀ = k then (k₀, v) :: rest else (k₀, v₀) :: alist_upsert k v rest

/-- Membership test for a key, modelling `k in d`. -/
def alist_has {β : Type} (k : String) (d : List (String × β)) : Bool :=
  d.any (fun p => p.1 = k)

/-- Key list of an association list. -/
def alist_keys {β : Type} (d : List (String × β)) : List String :=
  d.map Prod.fst

/-- Value list of an association list, modelling `dict.values()`. -/
def alist_values {β : Type} (d : List (String × β)) : List β :=
  d.map Prod.snd

/-! ## Generic character-list helpers for Python string operations -/

/-- Whitespace class of the Python `str.strip` / regex `\s`. -/
def isPySpace (c : Char) : Bool :=
  c = ' ' || c = '\t' || c = '\n' || c = '\r' || c = '\x0c' || c = '\x0b'

/-- Python `str.strip()` on a character list. -/
def pyStrip (l : List Char) : List Char :=
  ((l.dropWhile isPySpace).reverse.dropWhile isPySpace).reverse

/-- Substring test: `containsSub needle hay` holds iff `needle` occurs
contiguously inside `hay`, modelling the Python `in` operator on strings. -/
def containsSub (needle : List Char) : List Char → Bool
  | [] => needle.isEmpty
  | c :: rest => needle.isPrefixOf (c :: rest) || containsSub needle rest

/-- Split a character list at every occurrence of a single character,
modelling Python `str.split(c)` (used for `splitlines` with newline). -/
def splitOnCharAux (sep : Char) : List Char → List Char → List (List Char)
  | [], acc => [acc.reverse]
  | c :: rest, acc =>
    if c = sep then acc.reverse :: splitOnCharAux sep rest []
    else splitOnCharAux sep rest (c :: acc)

/-- Split on a character, starting with an empty accumulator. -/
def splitOnChar (sep : Char) (l : List Char) : List (List Char) :=
  splitOnCharAux sep l []

/-- Lower-case a character list via `Char.toLower`, modelling
`str.lower()` for the ASCII identifiers appearing in the analyzers. -/
def lowerChars (l : List Char) : List Char :=
  l.map Char.toLower

/-! ## Job store (`src/api/services/job_store.py`) and the analysis job
lifecycle (`src/api/routers/upload.py`, `src/api/routers/github.py`) -/

/-- `AnalysisJobStatus` from `src/api/models/api_models.py`. -/
inductive JobStatus where
  | pending
  | processing
  | completed
  | failed
  deriving DecidableEq, Repr

/-- A job record as stored by the submission handlers and the worker.
The analysis payload written on completion (`summary`, `issues`,
`dependency_graph`) is abstracted into the single flag `hasResults`;
the lifecycle claims are about the remaining fields. -/
structure JobRecord where
  jobId : String
  status : JobStatus
  createdAt : String
  error : Option String
  completedAt : Option String
  hasResults : Bool
  deriving DecidableEq, Repr

/-- The in-memory job store: a dict from job id to record. -/
abbrev JobStore := List (String × JobRecord)

/-- `JobStore.add_job`: `self.jobs[job_id] = job_data`, an unconditional
insert-or-replace with no inspection of the stored record. -/
def add_job (s : JobStore) (job_id : String) (job_data : JobRecord) : JobStore :=
  alist_upsert job_id job_data s

/-- `JobStore.get_job`: `self.jobs.get(job_id)`. -/
def get_job (s : JobStore) (job_id : String) : Option JobRecord :=
  alist_lookup job_id s

/-- A partial update passed to `JobStore.update_job`; `none` in a field
means the corresponding dict key is absent from the update. -/
structure JobUpdate where
  status : Option JobStatus := none
  error : Option String := none
  completedAt : Option String := none
  results : Bool := false
  deriving DecidableEq, Repr

/-- `dict.update` on a job record: keys present in the update overwrite
the stored values, all other keys are kept. -/
def applyUpdate (r : JobRecord) (u : JobUpdate) : JobRecord :=
  { r with
    status := u.status.getD r.status
    error := (u.error).elim r.error some
    completedAt := (u.completedAt).elim r.completedAt some
    hasResults := r.hasResults || u.results }

/-- `JobStore.update_job`: merge the partial update into the stored
record when the id is present, otherwise do nothing. -/
def update_job (s : JobStore) (job_id : String) (u : JobUpdate) : JobStore :=
  if alist_has job_id s then
    s.map (fun p => if p.1 = job_id then (p.1, applyUpdate p.2 u) else p)
  else s

/-- Possible outcomes of one background worker run
(`process_uploaded_files` / `process_github_analysis`): the `try` block
either reaches the completion write, or raises somewhere after the
`PROCESSING` write and lands in an `except` clause that writes `FAILED`
with a classified message. -/
inductive RunOutcome where
  | success
  | githubApiError (msg : String)
  | failure (msg : String)
  deriving DecidableEq, Repr

/-- Terminal status written by the worker for a given outcome. -/
def terminalStatus : RunOutcome → JobStatus
  | .success => .completed
  | .githubApiError _ => .failed
  | .failure _ => .failed

/-- The sequence of `update_job` calls a worker performs on its job, in
program order: first `{"status": PROCESSING}` (the first statement of the
`try` block), then exactly one terminal write carrying either the results
or the error, together with `completed_at`. -/
def workerUpdates (o : RunOutcome) (now : String) : List JobUpdate :=
  [{ status := some .processing },
   match o with
   | .success => { status := some .completed, completedAt := some now, results := true }
   | .githubApiError msg =>
     { status := some .failed, error := some ("GitHub API error: " ++ msg), completedAt := some now }
   | .failure msg =>
     { status := some .failed, error := some ("Analysis failed: " ++ msg), completedAt := some now }]

/-- The record created by the submission handler before scheduling the
background task (`status = PENDING`, no error, no completion data). -/
def pendingRecord (job_id created : String) : JobRecord :=
  { jobId := job_id, status := .pending, createdAt := created, error := none,
    completedAt := none, hasResults := false }

/-- Store contents right after the submission handler ran `add_job`. -/
def submittedStore (job_id created : String) : JobStore :=
  add_job [] job_id (pendingRecord job_id created)

/-- Store contents after the worker performed its first `k` updates. -/
def storeAfter (o : RunOutcome) (job_id created now : String) (k : ℕ) : JobStore :=
  ((workerUpdates o now).take k).foldl (fun s u => update_job s job_id u) (submittedStore job_id created)

/-- The status a client observes by polling after `j` worker steps. -/
def observedStatus (o : RunOutcome) (job_id created now : String) (j : ℕ) : Option JobStatus :=
  (get_job (storeAfter o job_id created now j) job_id).map (·.status)

/-- Collapse equal consecutive observations: the sequence of distinct
status values a poller can ever see, in order. -/
def compress {α : Type} [DecidableEq α] : List α → List α
  | [] => []
  | [a] => [a]
  | a :: b :: rest =>
    if a = b then compress (b :: rest) else a :: compress (b :: rest)

/-- All observations from submission time through `k` worker steps. -/
def observedTrace (o : RunOutcome) (job_id created now : String) (k : ℕ) : List (Option JobStatus) :=
  compress ((List.range (k + 1)).map (observedStatus o job_id created now))

/-! ## Workflow routing (`src/backend/agents/workflow.py`) -/

/-- The slice of `CodeAnalysisState` read by `check_analysis_completion`:
the discovered file lists per language and the per-language entries of the
`file_analysis_complete` dict (`none` models an absent key). -/
structure RoutingState where
  pythonFiles : List String
  jsFiles : List String
  dockerFiles : List String
  pythonComplete : Option Bool
  jsComplete : Option Bool
  dockerComplete : Option Bool
  deriving DecidableEq, Repr

/-- Routing targets returned by `check_analysis_completion`. -/
inductive Route where
  | javascript_analysis
  | docker_analysis
  | ai_review
  deriving DecidableEq, Repr

/-- `python_done` as computed in the source:
`completion_status.get("python", not python_needed)`. -/
def python_done (s : RoutingState) : Bool :=
  s.pythonComplete.getD s.pythonFiles.isEmpty

/-- `js_done` as computed in the source. -/
def js_done (s : RoutingState) : Bool :=
  s.jsComplete.getD s.jsFiles.isEmpty

/-- `docker_done` as computed in the source. -/
def docker_done (s : RoutingState) : Bool :=
  s.dockerComplete.getD s.dockerFiles.isEmpty

/-- `check_analysis_completion` from `src/backend/agents/workflow.py`,
lines 132-153, translated clause by clause. -/
def check_analysis_completion (s : RoutingState) : Route :=
  if python_done s && js_done s && docker_done s then
    .ai_review
  else if !js_done s && !s.jsFiles.isEmpty then
    .javascript_analysis
  else if !docker_done s && !s.dockerFiles.isEmpty then
    .docker_analysis
  else
    .ai_review

/-! ## Issue model (`src/backend/models/analysis_models.py`) -/

/-- `IssueSeverity`. -/
inductive IssueSeverity where
  | low
  | medium
  | high
  | critical
  deriving DecidableEq, Repr

/-- `IssueCategory` exactly as declared in the source: note that the
enum has no `CORRECTNESS` and no `MAINTAINABILITY` member. -/
inductive IssueCategory where
  | security
  | performance
  | duplication
  | complexity
  | testing
  | documentation
  | style
  deriving DecidableEq, Repr

/-- Python attribute access `IssueCategory.<NAME>` on the enum class:
defined members resolve, any other attribute raises `AttributeError`.
This is the shallow embedding of the lookup the Dockerfile analyzer
performs when it names `IssueCategory.CORRECTNESS`. -/
def IssueCategory.fromAttr : String → Except String IssueCategory
  | "SECURITY" => .ok .security
  | "PERFORMANCE" => .ok .performance
  | "DUPLICATION" => .ok .duplication
  | "COMPLEXITY" => .ok .complexity
  | "TESTING" => .ok .testing
  | "DOCUMENTATION" => .ok .documentation
  | "STYLE" => .ok .style
  | a => .error ("AttributeError: type object IssueCategory has no attribute " ++ a)

/-- `CodeIssue` with exactly the fields declared in
`src/backend/models/analysis_models.py`.  The model declares no
`ai_review_context` field; pydantic silently drops that keyword at
construction time and raises on attribute access, which is what the
issue-merge embedding below reflects. -/
structure CodeIssue where
  id : String
  category : IssueCategory
  severity : IssueSeverity
  title : String
  description : String
  file_path : String
  line_number : Option Int := none
  column_number : Option Int := none
  code_snippet : Option String := none
  suggestion : String
  impact_score : ℚ
  deriving DecidableEq, Repr

/-! ## Issue merge step of the AI review
(`src/backend/agents/ai_review_agent.py`, lines 687-712) -/

/-- The id-keyed dict of issues. -/
abbrev IssueDict := List (String × CodeIssue)

/-- `final_issues = {issue.id: issue for issue in existing_issues}`:
a dict comprehension keyed by issue id. -/
def issueDictOf (l : List CodeIssue) : IssueDict :=
  l.foldl (fun d i => alist_upsert i.id i d) []

/-- One step of the loop over `ai_review["enhanced_issues"]`.  When the
id is already present the source first assigns `suggestion` and
`impact_score` on the stored pydantic object and then evaluates
`issue.ai_review_context`; that attribute was dropped at construction
(the model declares no such field), so the read raises and the whole
merge aborts inside the surrounding `try`.  When the id is fresh the
issue is inserted as a new entry. -/
def enhancedStep (d : IssueDict) (i : CodeIssue) : Except String IssueDict :=
  if alist_has i.id d then
    .error "AttributeError: CodeIssue object has no attribute ai_review_context"
  else
    .ok (alist_upsert i.id i d)

/-- One step of the loop over `ai_review["new_issues_found"]`: insert iff
the id is absent, drop (with a diagnostic print) otherwise. -/
def newIssueStep (d : IssueDict) (i : CodeIssue) : IssueDict :=
  if alist_has i.id d then d else d ++ [(i.id, i)]

/-- The merge performed by `ai_review_agent` after converting the AI
envelope: dict of existing issues, enhanced-issue pass, new-issue pass,
then `list(final_issues.values())`. -/
def mergeIssues (existing enhanced newIssues : List CodeIssue) :
    Except String (List CodeIssue) := do
  let d1 ← enhanced.foldlM enhancedStep (issueDictOf existing)
  pure (alist_values (newIssues.foldl newIssueStep d1))

/-- Rank used by the claim for descending-severity order
(CRITICAL first).  This definition follows the words of the spec
sentence, not the source: the source applies no ordering at all. -/
def severityRank : IssueSeverity → ℕ
  | .critical => 0
  | .high => 1
  | .medium => 2
  | .low => 3

/-- Necessary condition for the order claimed by the spec: adjacent
issues are in weakly descending severity.  The full claimed order also
breaks ties by `(file_path, line_number)`; a list violating already the
severity component violates the claimed order. -/
def severitySortedDesc : List CodeIssue → Bool
  | [] => true
  | [_] => true
  | a :: b :: rest =>
    decide (severityRank a.severity ≤ severityRank b.severity) && severitySortedDesc (b :: rest)

/-- Order-only abstraction of the merge: how the key list of the dict
evolves.  `keyInsert` appends a fresh key and leaves a present key
where it is. -/
def keyInsert (ks : List String) (k : String) : List String :=
  if k ∈ ks then ks else ks ++ [k]

/-- The id order the merge actually produces: existing ids deduplicated
in first-occurrence order, then fresh enhanced ids, then fresh new ids,
each in arrival order. -/
def mergedIdOrder (existing enhanced newIssues : List CodeIssue) : List String :=
  ((newIssues.map (·.id)).foldl keyInsert
    ((enhanced.map (·.id)).foldl keyInsert
      ((existing.map (·.id)).foldl keyInsert [])))

/-! ## Hardcoded-secret scan
(`src/backend/analyzers/python_analyzer.py`, lines 256-337) -/

/-- The `test_indicators` list of `_is_likely_secret`, verbatim. -/
def test_indicators : List String :=
  ["test", "example", "dummy", "fake", "mock", "sample",
   "your_key_here", "replace_me", "todo", "fixme",
   "123456", "abcdef", "xxxxxx"]

/-- `_is_likely_secret`: suppress a regex match when the lower-cased line
contains a test indicator, when the line dereferences the environment, or
when the stripped line is a comment.  The `secret_type` argument of the
source is unused there and omitted here. -/
def is_likely_secret (line : List Char) : Bool :=
  let lower := lowerChars line
  if test_indicators.any (fun ind => containsSub ind.data lower) then false
  else if containsSub "os.getenv".data line || containsSub "environ".data line then false
  else if (pyStrip line).head? = some '#' then false
  else true

/-- The `secret_patterns` table: regex source, secret type, severity tag. -/
def secret_patterns : List (String × String × String) :=
  [("[\"\\x27]?API_?KEY[\"\\x27]?\\s*=\\s*[\"\\x27][^\"\\x27]\x7b20,\x7d[\"\\x27]", "API Key", "critical"),
   ("[\"\\x27]?GOOGLE_API_KEY[\"\\x27]?\\s*=\\s*[\"\\x27][^\"\\x27]\x7b20,\x7d[\"\\x27]", "Google API Key", "critical"),
   ("[\"\\x27]?OPENAI_API_KEY[\"\\x27]?\\s*=\\s*[\"\\x27][^\"\\x27]\x7b20,\x7d[\"\\x27]", "OpenAI API Key", "critical"),
   ("[\"\\x27]?AWS_ACCESS_KEY[\"\\x27]?\\s*=\\s*[\"\\x27][^\"\\x27]\x7b16,\x7d[\"\\x27]", "AWS Access Key", "critical"),
   ("[\"\\x27]?PASSWORD[\"\\x27]?\\s*=\\s*[\"\\x27][^\"\\x27]\x7b6,\x7d[\"\\x27]", "Hardcoded Password", "high"),
   ("[\"\\x27]?DB_PASSWORD[\"\\x27]?\\s*=\\s*[\"\\x27][^\"\\x27]\x7b6,\x7d[\"\\x27]", "Database Password", "high"),
   ("[\"\\x27]?TOKEN[\"\\x27]?\\s*=\\s*[\"\\x27][^\"\\x27]\x7b20,\x7d[\"\\x27]", "Access Token", "high"),
   ("[\"\\x27]?SECRET[\"\\x27]?\\s*=\\s*[\"\\x27][^\"\\x27]\x7b16,\x7d[\"\\x27]", "Secret Key", "high"),
   ("[\"\\x27][A-Za-z0-9]\x7b32,\x7d[\"\\x27]", "Potential Secret (32+ chars)", "medium"),
   ("sk-[A-Za-z0-9]\x7b32,\x7d", "OpenAI Secret Key Format", "critical"),
   ("AIza[A-Za-z0-9_-]\x7b35\x7d", "Google API Key Format", "critical"),
   ("AKIA[A-Z0-9]\x7b16\x7d", "AWS Access Key Format", "critical")]

/-- Severity tag to enum, `{...}.get(severity, IssueSeverity.HIGH)`. -/
def secretSeverity : String → IssueSeverity
  | "critical" => .critical
  | "high" => .high
  | "medium" => .medium
  | _ => .high

/-- The issue emitted for a confirmed secret match. -/
def mkSecretIssue (path : String) (line : List Char) (i : ℕ)
    (secretType sevTag : String) : CodeIssue :=
  { id := "hardcoded_secret_" ++ path ++ "_" ++ toString i
    category := .security
    severity := secretSeverity sevTag
    title := "Hardcoded " ++ secretType ++ " Detected"
    description := "Found hardcoded " ++ lowerStr0 secretType ++ " in source code"
    file_path := path
    line_number := some (i : Int)
    code_snippet := some (String.mk (pyStrip line))
    suggestion := "Move " ++ lowerStr0 secretType ++ " to environment variables or secure configuration"
    impact_score := if sevTag = "critical" then 9 else 7 }
where
  lowerStr0 (s : String) : String := String.mk (lowerChars s.data)

/-- `_analyze_hardcoded_secrets`.  The call into the external `re` module
is the oracle `reSearch pattern line`; everything around it, including the
suppression logic and the one-issue-per-line break, is embedded.  Lines
come from `content.splitlines()`, modelled as a newline split (the inputs
of interest contain no other line separators). -/
def analyze_hardcoded_secrets (reSearch : String → String → Bool)
    (content path : String) : List CodeIssue :=
  (splitOnChar '\n' content.data).enum.filterMap fun p =>
    let i := p.1 + 1
    let line := p.2
    let stripped := pyStrip line
    if stripped.head? = some '#' || stripped.isEmpty then none
    else
      secret_patterns.findSome? fun t =>
        if reSearch t.1 (String.mk line) && is_likely_secret line then
          some (mkSecretIssue path line i t.2.1 t.2.2)
        else none

/-- The S1 scenario line from the spec, as file content. -/
def s1SecretContent : String := "API_KEY = \"sk-0123456789abcdef0123456789abcdef\""

/-! ## Severity-distribution percentages
(`src/api/services/analyzer.py`, lines 104-126) -/

/-- Round-half-to-even of the rational `num / den` (both naturals),
returning the nearest integer.  This is the exact-arithmetic model of the
Python builtin `round` used on the percentage values. -/
def roundHalfEven (num den : ℕ) : ℕ :=
  if 2 * (num % den) < den then num / den
  else if den < 2 * (num % den) then num / den + 1
  else if (num / den) % 2 = 0 then num / den else num / den + 1

/-- One severity bucket of `severity_distribution`:
`round(count / max(total_issues, 1) * 100, 1)`.  Rounding to one decimal
digit is rounding the value times ten to an integer number of tenths. -/
def severity_percentage (count total : ℕ) : ℚ :=
  (roundHalfEven (count * 1000) (max total 1) : ℚ) / 10

/-! ## Page-block assembly (`src/backend/tools/notion_tool.py`) -/

/-- One block of the external block document; `content` is the single
text payload of its `rich_text` field (empty for dividers). -/
structure Block where
  btype : String
  content : String
  deriving DecidableEq, Repr

/-- A value of the `fixes` dict: either a list of actions or one item. -/
inductive FixVal where
  | many (actions : List String)
  | one (item : String)
  deriving DecidableEq, Repr

/-- The report dict consumed by `push_to_notion`, with its defaulted
fields materialized. -/
structure NotionReport where
  file : String
  issues : List String
  fixes : List (String × FixVal)
  code : String
  language : String
  severity : String
  summary : String
  deriving DecidableEq, Repr

/-- A pre-rendered block coming from a JSON array in `report["code"]`:
whether it is a dict with `object` and `type` keys, its type, whether its
typed field carries a `rich_text` list, and that text content. -/
structure JsonBlock where
  isObjWithType : Bool
  btype : String
  hasRichText : Bool
  content : String
  deriving DecidableEq, Repr

/-- Python `s[:n]`. -/
def pyTake (n : ℕ) (s : String) : String := String.mk (s.data.take n)

/-- Python `s.upper()` for the ASCII severity tags. -/
def upperStr (s : String) : String := String.mk (s.data.map Char.toUpper)

/-- Python `s.lower()`. -/
def lowerStr (s : String) : String := String.mk (lowerChars s.data)

/-- `severity_emoji`: the source maps the four known severities to empty
strings and anything else to an info mark. -/
def severityEmoji (sev : String) : String :=
  match lowerStr sev with
  | "critical" => ""
  | "high" => ""
  | "medium" => ""
  | "low" => ""
  | _ => "ℹ"

/-- Page title: `Code Review: {file}` plus the optional summary. -/
def titleContent (r : NotionReport) : String :=
  "Code Review: " ++ r.file ++ (if r.summary ≠ "" then " - " ++ r.summary else "")

/-- Severity paragraph block. -/
def severityBlock (r : NotionReport) : Block :=
  ⟨"paragraph", severityEmoji r.severity ++ " Severity: " ++ upperStr r.severity⟩

/-- Key-issues section: one bulleted item per issue, content unmodified. -/
def issuesBlocks (r : NotionReport) : List Block :=
  if r.issues.isEmpty then []
  else ⟨"heading_2", "Key Issues"⟩ :: r.issues.map (fun i => ⟨"bulleted_list_item", i⟩)

/-- Recommended-actions section, content unmodified. -/
def fixesBlocks (r : NotionReport) : List Block :=
  if r.fixes.isEmpty then []
  else
    ⟨"heading_2", "Recommended Actions"⟩ ::
      r.fixes.flatMap fun p =>
        match p.2 with
        | .many actions => ⟨"heading_3", p.1⟩ :: actions.map (fun a => ⟨"bulleted_list_item", a⟩)
        | .one item => [⟨"bulleted_list_item", p.1 ++ ": " ++ item⟩]

/-- Python `code.split("\n\n")`: split at each non-overlapping blank-line
separator, leftmost first. -/
def splitParaAux : List Char → List Char → List (List Char)
  | '\n' :: '\n' :: rest, acc => acc.reverse :: splitParaAux rest []
  | c :: rest, acc => splitParaAux rest (c :: acc)
  | [], acc => [acc.reverse]

/-- Paragraph split of a code string. -/
def splitParagraphs (l : List Char) : List (List Char) := splitParaAux l []

/-- Markdown processing of the comprehensive report content
(`push_to_notion`, lines 200-240): up to twenty paragraphs, each becoming
a heading, bullet items, or a paragraph block, with every produced text
content passed through `[:1990]`. -/
def markdown_blocks (code : String) : List Block :=
  ((splitParagraphs code.data).take 20).flatMap fun p =>
    if (pyStrip p).isEmpty then []
    else if p.head? = some '#' then
      if p.count '#' ≤ 3 then
        [⟨"heading_" ++ toString (p.count '#'),
          String.mk ((pyStrip (p.dropWhile (· = '#'))).take 1990)⟩]
      else [⟨"paragraph", String.mk (p.take 1990)⟩]
    else if ("- ".data).isPrefixOf p || ("* ".data).isPrefixOf p then
      (splitOnChar '\n' p).filterMap fun b =>
        if (pyStrip b).isEmpty then none
        else
          some ⟨"bulleted_list_item",
            String.mk ((pyStrip ((b.dropWhile (fun c => c = '-' || c = ' ')).dropWhile
              (fun c => c = '*' || c = ' '))).take 1990)⟩
    else [⟨"paragraph", String.mk (p.take 1990)⟩]

/-- Fallback when the JSON-array parse of the comprehensive content fails
(lines 190-198): plain paragraph blocks, again through `[:1990]`. -/
def fallback_paragraph_blocks (code : String) : List Block :=
  ((splitParagraphs code.data).take 20).filterMap fun p =>
    if (pyStrip p).isEmpty then none
    else some ⟨"paragraph", String.mk (p.take 1990)⟩

/-- The five field names whose `rich_text` content the JSON path caps. -/
def textFieldNames : List String :=
  ["paragraph", "bulleted_list_item", "heading_1", "heading_2", "heading_3"]

/-- JSON-array path of the comprehensive section (lines 148-179):
skip non-dict blocks and tables, cap the content of the five text field
types at 1990, keep dividers, keep typed blocks carrying rich text. -/
def json_blocks_main (bs : List JsonBlock) : List Block :=
  bs.filterMap fun b =>
    if !b.isObjWithType then none
    else if b.btype = "table" then none
    else
      let c := if b.btype ∈ textFieldNames then pyTake 1990 b.content else b.content
      if b.btype = "divider" then some ⟨"divider", ""⟩
      else if b.hasRichText then some ⟨b.btype, c⟩
      else none

/-- JSON-array path of the short-code section (lines 256-269): same cap
on the five text types, no table or validity filtering. -/
def json_blocks_codepath (bs : List JsonBlock) : List Block :=
  bs.filterMap fun b =>
    if !b.isObjWithType then none
    else some ⟨b.btype, if b.btype ∈ textFieldNames then pyTake 1990 b.content else b.content⟩

/-- `code.strip().startswith("[") and code.strip().endswith("]")`. -/
def bracketShaped (code : String) : Bool :=
  (pyStrip code.data).head? = some '[' && (pyStrip code.data).getLast? = some ']'

/-- The code block emitted for short non-JSON content (lines 276-283). -/
def shortCodeBlock (r : NotionReport) : Block :=
  ⟨"code", if r.code.length > 2000 then pyTake 2000 r.code else r.code⟩

/-- The full `children_blocks` list `push_to_notion` assembles before
calling the page API.  `parse` models `json.loads` plus the structural
checks on the decoded value: `none` when decoding raises or the value is
not a list. -/
def push_to_notion_children (parse : String → Option (List JsonBlock))
    (r : NotionReport) : List Block :=
  let base :=
    ⟨"heading_1", titleContent r⟩ :: severityBlock r :: (issuesBlocks r ++ fixesBlocks r)
  if r.code ≠ "" ∧ r.code.length > 500 then
    base ++ ⟨"heading_2", "Comprehensive Analysis Report"⟩ ::
      (if bracketShaped r.code then
        match parse r.code with
        | some bs => json_blocks_main bs
        | none => fallback_paragraph_blocks r.code
      else markdown_blocks r.code)
  else if r.code ≠ "" then
    base ++ ⟨"heading_2", "Code Analysis"⟩ ::
      (if lowerStr r.language = "json" ∧ bracketShaped r.code then
        match parse r.code with
        | some bs => json_blocks_codepath bs
        | none => [shortCodeBlock r]
      else [shortCodeBlock r])
  else base

/-! ## Dependency graph structure
(`src/api/services/dependency_graph.py`, lines 187-259) -/

/-- A node of the dependency graph (`api_models.GraphNode`). -/
structure GraphNode where
  id : String
  name : String
  group : ℕ
  type : String
  size : ℕ
  deriving DecidableEq, Repr

/-- A link of the dependency graph (`api_models.GraphLink`). -/
structure GraphLink where
  source : String
  target : String
  value : ℕ
  deriving DecidableEq, Repr

/-- `os.path.basename` on a POSIX host: everything after the last slash. -/
def basenamePosix (s : String) : String :=
  String.mk ((s.data.reverse.takeWhile (· ≠ '/')).reverse)

/-- Python `s.endswith(suffix)`. -/
def endsWithStr (suffix s : String) : Bool :=
  suffix.data.reverse.isPrefixOf s.data.reverse

/-- `get_file_type_and_group`, translated branch by branch. -/
def get_file_type_and_group (p : String) : String × ℕ :=
  if endsWithStr ".py" p then ("python", 1)
  else if endsWithStr ".js" p || endsWithStr ".jsx" p then ("javascript", 2)
  else if endsWithStr ".ts" p || endsWithStr ".tsx" p then ("typescript", 3)
  else if endsWithStr "Dockerfile" p || containsSub "Dockerfile".data p.data then ("docker", 4)
  else ("other", 5)

/-- The node built for one source file of the dependency dict. -/
def mkGraphNode (fp : String) (imps : List String) : GraphNode :=
  { id := fp
    name := basenamePosix fp
    group := (get_file_type_and_group fp).2
    type := (get_file_type_and_group fp).1
    size := 100 + 20 * imps.length }

/-- The node-building loop with its `unique_nodes` seen-set. -/
def build_nodes : List (String × List String) → List String → List GraphNode
  | [], _ => []
  | (fp, imps) :: rest, seen =>
    if fp ∈ seen then build_nodes rest seen
    else mkGraphNode fp imps :: build_nodes rest (fp :: seen)

/-- The skip test for external imports: neither a path-like target nor a
target with a known source extension creates a link. -/
def skip_import (t : String) : Bool :=
  !(t.data.head? = some '/' || t.data.head? = some '.') &&
    !([".py", ".js", ".jsx", ".ts", ".tsx"].any (fun e => endsWithStr e t))

/-- `import_basename`: basename only when the import looks path-like. -/
def import_basename (t : String) : String :=
  if containsSub "/".data t.data || containsSub "\\".data t.data then basenamePosix t else t

/-- The suffix/basename match between an import and a candidate file. -/
def matches_import (t pot : String) : Bool :=
  pot == t ||
  endsWithStr ("/" ++ t) pot ||
  endsWithStr ("\\" ++ t) pot ||
  endsWithStr ("/" ++ t ++ ".py") pot ||
  endsWithStr ("\\" ++ t ++ ".py") pot ||
  basenamePosix pot == import_basename t ||
  basenamePosix pot == import_basename t ++ ".py"

/-- The link-building loop: for every import of every file, the first
matching known file (if any) yields one link of value 1. -/
def build_links (deps : List (String × List String)) : List GraphLink :=
  deps.flatMap fun p =>
    p.2.filterMap fun t =>
      if skip_import t then none
      else
        ((alist_keys deps).find? (fun pot => matches_import t pot)).map
          (fun tgt => { source := p.1, target := tgt, value := 1 })

/-- `_create_graph_structure`: nodes for every file of the dependency
dict, then the resolved links. -/
def create_graph_structure (deps : List (String × List String)) :
    List GraphNode × List GraphLink :=
  (build_nodes deps [], build_links deps)

/-! ## Dockerfile analyzer (`src/backend/analyzers/docker_analyzer.py`) -/

/-- `FileMetrics` from `src/backend/models/analysis_models.py`. -/
structure FileMetrics where
  file_path : String
  language : String
  lines_of_code : ℕ
  complexity_score : ℚ
  duplication_percentage : ℚ
  test_coverage : Option ℚ := none
  deriving DecidableEq, Repr

/-- Does one of the keywords start at this position, followed by one
whitespace character (the `\s+` of the anchored regex)? -/
def kwAt (kws : List (List Char)) (l : List Char) : Bool :=
  kws.any fun kw =>
    kw.isPrefixOf l &&
      match l.drop kw.length with
      | c :: _ => isPySpace c
      | [] => false

/-- Scan the positions right after every newline. -/
def scanAfterNewlines (kws : List (List Char)) : List Char → Bool
  | [] => false
  | c :: rest =>
    (c = '\n' && kwAt kws (rest.dropWhile isPySpace)) || scanAfterNewlines kws rest

/-- `re.search(r"^\s*(KW1|...)\s+", content, re.MULTILINE)` for keywords
starting with a non-space character: a match exists iff at the start of
the string or right after some newline, skipping whitespace (which may
span further newlines, subsumed by the later anchor), one keyword occurs
followed by a whitespace character. -/
def multilineAnchorMatch (kws : List (List Char)) (content : List Char) : Bool :=
  kwAt kws (content.dropWhile isPySpace) || scanAfterNewlines kws content

/-- `content.splitlines()` modelled as a newline split. -/
def linesOf (content : String) : List (List Char) :=
  splitOnChar '\n' content.data

/-- Oracles for the calls into the external `re` module made by the
per-line pattern dictionaries and the metric counters: whether a pattern
matches a line, the captures of `re.findall(r"^\s*RUN\s+(.+)$", ...)`,
and the instruction count of the metrics heuristic. -/
structure DockerOracles where
  lineMatch : String → String → Bool
  runCommands : String → List String
  instructionCount : String → ℕ

/-- `security_patterns`, verbatim pattern/message pairs. -/
def docker_security_patterns : List (String × String) :=
  [("apt-get\\s+install\\s+.*--no-install-recommends", "Good practice: Using --no-install-recommends reduces image size."),
   ("apt-get\\s+install(?!.*--no-install-recommends)", "Consider adding --no-install-recommends to reduce image size."),
   ("apt-get\\s+(?!clean).*(?<!&&\\s+apt-get clean)", "Missing apt-get clean after apt-get commands increases image size."),
   ("USER\\s+root", "Running as root in containers is a security risk. Consider using a non-root user."),
   ("COPY\\s+.*\\.env\\s+", "Copying .env files into Docker images may expose sensitive data."),
   ("ENV\\s+.*PASSWORD", "Hardcoded passwords or secrets in ENV variables are a security risk."),
   ("ENV\\s+.*SECRET", "Hardcoded secrets in ENV variables are a security risk."),
   ("ENV\\s+.*TOKEN", "Hardcoded tokens in ENV variables are a security risk."),
   ("ENV\\s+.*KEY", "Hardcoded keys in ENV variables are a security risk.")]

/-- `best_practice_patterns`, verbatim pattern/message pairs. -/
def docker_best_practice_patterns : List (String × String) :=
  [("ADD\\s+", "COPY is preferred over ADD for simple file copying, as ADD has some surprising behaviors."),
   ("RUN\\s+.*(?<!\\s&&)\\s*apt-get\\s+update(?!\\s+&&)", "apt-get update should be in the same layer as apt-get install."),
   ("RUN\\s+.*(?<!\\s&&)\\s*pip\\s+install(?!\\s+&&)", "Consider using pip install with a requirements.txt file for better caching."),
   ("RUN\\s+.*(?<!\\s&&)\\s*npm\\s+install(?!\\s+&&)", "Consider using npm ci with a package-lock.json for better reproducibility."),
   ("WORKDIR\\s+\\/(?!home|app|usr|opt|src)", "Consider using a standard directory like /app, /home/app, or /usr/src/app.")]

/-- `base_image_patterns`, verbatim pattern/message pairs. -/
def docker_base_image_patterns : List (String × String) :=
  [("FROM\\s+ubuntu(?::latest)?\\s", "Consider using a more specific tag than latest for reproducibility."),
   ("FROM\\s+debian(?::latest)?\\s", "Consider using a more specific tag than latest for reproducibility."),
   ("FROM\\s+alpine(?::latest)?\\s", "Consider using a more specific tag than latest for reproducibility."),
   ("FROM\\s+node(?::latest)?\\s", "Consider using a more specific tag than latest for reproducibility."),
   ("FROM\\s+python(?::latest)?\\s", "Consider using a more specific tag than latest for reproducibility.")]

/-- Construct a `CodeIssue` whose category is named by a Python attribute
access on the `IssueCategory` enum; an undefined member raises. -/
def mkIssueE (catAttr : String) (sev : IssueSeverity) (id title descr path : String)
    (line : Option Int) (snippet : Option String) (sugg : String) (impact : ℚ) :
    Except String CodeIssue := do
  let c ← IssueCategory.fromAttr catAttr
  pure { id := id, category := c, severity := sev, title := title, description := descr,
         file_path := path, line_number := line, code_snippet := snippet,
         suggestion := sugg, impact_score := impact }

/-- Per-line loop body of `_analyze_security`: each matching pattern
yields a SECURITY issue whose severity is upgraded for messages naming a
security risk, while good-practice messages are skipped. -/
def docker_security_line (orc : DockerOracles) (path : String) (i : ℕ)
    (line : List Char) : Except String (List CodeIssue) :=
  docker_security_patterns.foldlM
    (fun acc pm =>
      if orc.lineMatch pm.1 (String.mk line) then
        if containsSub "security risk".data pm.2.data then do
          let issue ← mkIssueE "SECURITY" .high ("docker_security_" ++ toString i ++ "_" ++ path)
            "Docker security issue" pm.2 path (some (i : Int))
            (some (String.mk (pyStrip line))) pm.2 8
          pure (acc ++ [issue])
        else if containsSub "good practice".data (lowerChars pm.2.data) then
          pure acc
        else do
          let issue ← mkIssueE "SECURITY" .medium ("docker_security_" ++ toString i ++ "_" ++ path)
            "Docker security issue" pm.2 path (some (i : Int))
            (some (String.mk (pyStrip line))) pm.2 5
          pure (acc ++ [issue])
      else pure acc)
    []

/-- `_analyze_security`: the missing-USER whole-file check, then the
per-line pattern scan. -/
def docker_analyze_security (orc : DockerOracles) (content path : String) :
    Except String (List CodeIssue) := do
  let rootIssues ←
    if multilineAnchorMatch ["USER".data] content.data then pure []
    else do
      let issue ← mkIssueE "SECURITY" .medium ("docker_security_root_user_" ++ path)
        "Container runs as root user"
        "Running containers as root is a security risk. Consider adding a USER directive with a non-root user."
        path (some 1) (some "# No USER directive found (container will run as root)")
        "Add a USER directive with a non-root user." 7
      pure [issue]
  let lineIssues ← (linesOf content).enum.foldlM
    (fun acc p => do
      let li ← docker_security_line orc path (p.1 + 1) p.2
      pure (acc ++ li))
    []
  pure (rootIssues ++ lineIssues)

/-- Line number reported by the too-many-layers issue: the first line
whose stripped text starts with `RUN`, defaulting to 1. -/
def firstRunLineAux : ℕ → List (List Char) → ℕ
  | _, [] => 1
  | i, l :: rest => if ("RUN".data).isPrefixOf (pyStrip l) then i else firstRunLineAux (i + 1) rest

/-- `_analyze_best_practices`: the layer-count heuristic, the missing
`ENTRYPOINT`/`CMD` check — whose issue names the undefined enum member
`IssueCategory.CORRECTNESS` — and the per-line style patterns. -/
def docker_analyze_best_practices (orc : DockerOracles) (content path : String) :
    Except String (List CodeIssue) := do
  let runCmds := orc.runCommands content
  let layerIssues ←
    if runCmds.length > 3 ∧
        2 * (runCmds.filter (fun c => containsSub "&&".data c.data)).length < runCmds.length then do
      let issue ← mkIssueE "PERFORMANCE" .low ("docker_best_practice_layers_" ++ path)
        "Too many Docker layers"
        "Having too many RUN instructions creates unnecessary layers. Consider combining commands with && to reduce layers."
        path (some (firstRunLineAux 1 (linesOf content) : ℕ)) (some "Multiple RUN instructions detected")
        "Combine related RUN instructions with && to reduce layers." 4
      pure [issue]
    else pure []
  let startIssues ←
    if multilineAnchorMatch ["ENTRYPOINT".data, "CMD".data] content.data then pure []
    else do
      let issue ← mkIssueE "CORRECTNESS" .medium ("docker_best_practice_entrypoint_cmd_" ++ path)
        "Missing ENTRYPOINT or CMD"
        "A Dockerfile should have either an ENTRYPOINT or CMD instruction to specify what runs when the container starts."
        path (some ((linesOf content).length : ℕ)) (some "# No ENTRYPOINT or CMD found")
        "Add an ENTRYPOINT or CMD instruction to specify what should run when the container starts." 6
      pure [issue]
  let lineIssues ← (linesOf content).enum.foldlM
    (fun acc p =>
      docker_best_practice_patterns.foldlM
        (fun acc2 pm =>
          if orc.lineMatch pm.1 (String.mk p.2) then do
            let issue ← mkIssueE "STYLE" .low
              ("docker_best_practice_" ++ toString (p.1 + 1) ++ "_" ++ path)
              "Docker best practice issue" pm.2 path (some ((p.1 + 1 : ℕ) : Int))
              (some (String.mk (pyStrip p.2))) pm.2 (7/2)
            pure (acc2 ++ [issue])
          else pure acc2)
        acc)
    []
  pure (layerIssues ++ startIssues ++ lineIssues)

/-- `_analyze_base_image`: missing-FROM check (naming the undefined
`CORRECTNESS` member), latest-tag check (naming the undefined
`MAINTAINABILITY` member), outdated bases, and the base-image patterns. -/
def docker_analyze_base_image (orc : DockerOracles) (content path : String) :
    Except String (List CodeIssue) := do
  let fromLines := ((linesOf content).enum.map (fun p => ((p.1 + 1 : ℕ), p.2))).filter
    (fun p => ("FROM".data).isPrefixOf (pyStrip p.2))
  if fromLines.isEmpty then do
    let issue ← mkIssueE "CORRECTNESS" .high ("docker_base_missing_from_" ++ path)
      "Missing FROM instruction"
      "A valid Dockerfile must have a FROM instruction to specify the base image."
      path (some 1) (some "# No FROM instruction found")
      "Add a FROM instruction to specify the base image." 8
    pure [issue]
  else
    fromLines.foldlM
      (fun acc p => do
        let latestIssues ←
          if containsSub ":latest".data p.2 || !(containsSub ":".data p.2) then do
            let issue ← mkIssueE "MAINTAINABILITY" .medium
              ("docker_base_latest_tag_" ++ toString p.1 ++ "_" ++ path) "Using latest tag"
              "Using the latest tag or no tag (which defaults to latest) makes builds non-reproducible."
              path (some (p.1 : Int)) (some (String.mk (pyStrip p.2)))
              "Specify a fixed version tag for the base image." 6
            pure [issue]
          else pure []
        let outdatedIssues ←
          if containsSub "ubuntu:16.04".data p.2 || containsSub "ubuntu:14.04".data p.2 ||
              containsSub "debian:jessie".data p.2 || containsSub "debian:stretch".data p.2 then do
            let issue ← mkIssueE "SECURITY" .high
              ("docker_base_outdated_" ++ toString p.1 ++ "_" ++ path) "Outdated base image"
              "Using an outdated base image can introduce security vulnerabilities."
              path (some (p.1 : Int)) (some (String.mk (pyStrip p.2)))
              "Update to a more recent base image version." (15/2)
            pure [issue]
          else pure []
        let patternIssues ← docker_base_image_patterns.foldlM
          (fun acc2 pm =>
            if orc.lineMatch pm.1 (String.mk p.2) then do
              let issue ← mkIssueE "MAINTAINABILITY" .low
                ("docker_base_" ++ toString p.1 ++ "_" ++ path) "Base image issue" pm.2 path
                (some (p.1 : Int)) (some (String.mk (pyStrip p.2))) pm.2 4
              pure (acc2 ++ [issue])
            else pure acc2)
          []
        pure (acc ++ latestIssues ++ outdatedIssues ++ patternIssues))
      []

/-- `DockerAnalyzer.analyze`: the three phases in program order followed
by the metrics record; any `AttributeError` raised while building an
issue propagates out of `analyze`. -/
def docker_analyze (orc : DockerOracles) (content path : String) :
    Except String (List CodeIssue × FileMetrics) := do
  let sec ← docker_analyze_security orc content path
  let best ← docker_analyze_best_practices orc content path
  let base ← docker_analyze_base_image orc content path
  pure (sec ++ best ++ base,
    { file_path := path
      language := "docker"
      lines_of_code := (linesOf content).length
      complexity_score :=
        if orc.instructionCount content ≠ 0 then (orc.instructionCount content : ℚ) / 5 else 1
      duplication_percentage := 0
      test_coverage := none })

/-- Trivial oracles: no per-line regex matches, no RUN captures, no
instruction count.  Accurate for the concrete Dockerfile used below,
whose lines match none of the per-line patterns. -/
def trivialDockerOracles : DockerOracles :=
  { lineMatch := fun _ _ => false
    runCommands := fun _ => []
    instructionCount := fun _ => 0 }

/-- The failing Dockerfile of the missing-start-instruction check: a
well-formed file with neither `CMD` nor `ENTRYPOINT`. -/
def noStartDockerfile : String := "FROM alpine:3.19\nRUN echo hi"

/-! ## Concrete instances used by the theorems below -/

/-- Status reached after `j` worker steps, used to describe the trace. -/
def statusAtStep (o : RunOutcome) : ℕ → JobStatus
  | 0 => .pending
  | 1 => .processing
  | _ + 2 => terminalStatus o

/-- A job record in the COMPLETED terminal state. -/
def completedRec : JobRecord :=
  { jobId := "j", status := .completed, createdAt := "t0", error := none,
    completedAt := some "t1", hasResults := true }

/-- A job record in the FAILED terminal state for the same job id. -/
def failedRec : JobRecord :=
  { jobId := "j", status := .failed, createdAt := "t0", error := some "boom",
    completedAt := some "t2", hasResults := false }

/-- A state in which python files were discovered but the python stage
never ran, while nothing else was discovered. -/
def pythonOnlyState : RoutingState :=
  { pythonFiles := ["main.py"], jsFiles := [], dockerFiles := [],
    pythonComplete := none, jsComplete := none, dockerComplete := none }

/-- An analyzer-produced LOW issue already present before the AI pass. -/
def issueLowPerf : CodeIssue :=
  { id := "app.py-10-nestedloopsdetected", category := .performance, severity := .low,
    title := "Nested loops detected", description := "Nested loops can impact performance",
    file_path := "app.py", line_number := some 10, suggestion := "Optimize the loop",
    impact_score := 5 }

/-- An AI-enhanced issue carrying the same id as `issueLowPerf`. -/
def issueEnhSame : CodeIssue :=
  { id := "app.py-10-nestedloopsdetected", category := .performance, severity := .high,
    title := "Nested loops detected", description := "AI reassessed description",
    file_path := "app.py", line_number := some 10, suggestion := "AI suggestion",
    impact_score := 8 }

/-- A genuinely new AI issue with a fresh namespaced id and CRITICAL
severity. -/
def issueNewCritical : CodeIssue :=
  { id := "ai_new_0", category := .security, severity := .critical,
    title := "SQL injection risk", description := "Detected by the AI review",
    file_path := "db.py", line_number := some 3, suggestion := "Use parameters",
    impact_score := 9 }

/-- A 2000-character issue description. -/
def bigIssueText : String := String.mk (List.replicate 2000 'a')

/-- A report whose only issue is 2000 characters long and whose `code`
payload is empty. -/
def bigIssueReport : NotionReport :=
  { file := "f.py", issues := [bigIssueText], fixes := [], code := "",
    language := "python", severity := "medium", summary := "" }

/-- A dependency dict in which one file resolves the same import twice. -/
def dupImportDeps : List (String × List String) :=
  [("a.js", ["./b.js", "./b.js"]), ("b.js", [])]

/-- Well-formedness of an issue dict: every stored issue is keyed by its
own id.  All dicts arising in the merge have this shape. -/
def WfIssueDict (d : IssueDict) : Prop := ∀ p ∈ d, p.2.id = p.1

/-! # Theorems

Shared lemmas first, then one theorem per claim (with its counterexample
and witness where required). -/

theorem containsSub_iff_infix (n h : List Char) : containsSub n h = true ↔ n <:+: h := by
  induction h with
  | nil =>
    simp only [containsSub, List.isEmpty_iff]
    constructor
    · rintro rfl
      exact List.infix_rfl
    · rintro ⟨s, t, heq⟩
      rcases List.append_eq_nil.mp (List.append_assoc s n t ▸ heq) with ⟨hs, hnt⟩
      exact (List.append_eq_nil.mp hnt).1
  | cons c rest ih =>
    simp only [containsSub, Bool.or_eq_true, List.isPrefixOf_iff_prefix, ih]
    constructor
    · rintro (hp | hi)
      · exact hp.isInfix
      · exact hi.trans (List.suffix_cons c rest).isInfix
    · rintro ⟨s, t, heq⟩
      cases s with
      | nil => exact Or.inl ⟨t, heq⟩
      | cons x s =>
        rw [List.cons_append, List.cons_append] at heq
        injection heq with hx hrest
        exact Or.inr ⟨s, t, hrest⟩

theorem alist_lookup_upsert_self {β : Type} (d : List (String × β)) (k : String) (v : β) :
    alist_lookup k (alist_upsert k v d) = some v := by
  induction d with
  | nil => simp [alist_upsert, alist_lookup]
  | cons p rest ih =>
    obtain ⟨k₀, v₀⟩ := p
    by_cases h : k₀ = k
    · simp [alist_upsert, alist_lookup, h]
    · simp [alist_upsert, alist_lookup, h, ih]

/-- Claim C5, amended part: `add_job` unconditionally inserts or
replaces; the record previously stored under the id, terminal or not, is
discarded and the incoming record becomes the stored one. -/
theorem add_job_insert_or_replace (s : JobStore) (job_id : String) (r : JobRecord) :
    get_job (add_job s job_id r) job_id = some r :=
  alist_lookup_upsert_self s job_id r

/-- Claim C5, counterexample: a store holding a COMPLETED record accepts
an `add_job` carrying a different terminal status (FAILED) for the same
id, and the stored record changes — the store rejects nothing. -/
theorem add_job_terminal_conflict_accepted :
    get_job (add_job (add_job [] "j" completedRec) "j" failedRec) "j" = some failedRec ∧
    completedRec.status = .completed ∧ failedRec.status = .failed ∧
    failedRec ≠ completedRec := by
  refine ⟨?_, rfl, rfl, by decide⟩
  decide

/-- Claim C2, counterexample: in a state where python files were
discovered (`python_done` is false because the completion dict has no
python entry) and nothing else needs work, `check_analysis_completion`
routes to `ai_review`, not to any pending language stage. -/
theorem check_analysis_completion_python_pending_reaches_review :
    check_analysis_completion pythonOnlyState = .ai_review ∧
    pythonOnlyState.pythonFiles ≠ [] ∧
    python_done pythonOnlyState = false := by
  refine ⟨by decide, by decide, by decide⟩

/-- Claim C2, amended: `check_analysis_completion` reaches `ai_review`
exactly when neither javascript nor docker still needs analysis; the
python completion flag and the python file list never influence the
routing decision, so pending python work is silently skipped. -/
theorem check_analysis_completion_routes (s : RoutingState) :
    (check_analysis_completion s = .ai_review ↔
      ((js_done s = true ∨ s.jsFiles = []) ∧ (docker_done s = true ∨ s.dockerFiles = []))) ∧
    (∀ b fs, check_analysis_completion { s with pythonComplete := b, pythonFiles := fs } =
      check_analysis_completion s) := by
  constructor
  · unfold check_analysis_completion
    rcases hj : js_done s <;> rcases hd : docker_done s <;> rcases hp : python_done s <;>
      rcases hje : s.jsFiles.isEmpty <;> rcases hde : s.dockerFiles.isEmpty <;>
        simp_all [List.isEmpty_iff]
  · intro b fs
    have hjs : js_done { s with pythonComplete := b, pythonFiles := fs } = js_done s := rfl
    have hds : docker_done { s with pythonComplete := b, pythonFiles := fs } = docker_done s := rfl
    unfold check_analysis_completion
    rw [hjs, hds]
    rcases hp : python_done { s with pythonComplete := b, pythonFiles := fs } <;>
      rcases hp' : python_done s <;>
        rcases hj : js_done s <;> rcases hd : docker_done s <;>
          rcases hje : s.jsFiles.isEmpty <;> rcases hde : s.dockerFiles.isEmpty <;>
            simp_all

/-- Claim C6, amended: whatever the regex engine reports, the S1 line
`API_KEY = "sk-0123456789abcdef0123456789abcdef"` produces no issue at
all, because `_is_likely_secret` rejects it — the key value contains the
test indicators `123456` and `abcdef`, so every pattern match on the line
is suppressed. -/
theorem s1_secret_line_suppressed (reSearch : String → String → Bool) :
    analyze_hardcoded_secrets reSearch s1SecretContent "secret.py" = [] := by
  have hlikely : is_likely_secret s1SecretContent.data = false := by decide
  have hsplit : splitOnChar '\n' s1SecretContent.data = [s1SecretContent.data] := by decide
  unfold analyze_hardcoded_secrets
  rw [hsplit]
  simp only [List.enum, List.enumFrom, List.filterMap]
  rw [if_neg (by decide)]
  have : (secret_patterns.findSome? fun t =>
      if reSearch t.1 (String.mk s1SecretContent.data) && is_likely_secret s1SecretContent.data then
        some (mkSecretIssue "secret.py" s1SecretContent.data (0 + 1) t.2.1 t.2.2)
      else none) = none := by
    rw [List.findSome?_eq_none_iff]
    intro t _
    rw [hlikely]
    simp
  rw [this]

/-- Claim C6, counterexample: the spec scenario S1 expects exactly one
CRITICAL SECURITY issue for this line, but the analyzer emits none, even
with a regex oracle that reports a match for every pattern. -/
theorem s1_secret_line_yields_no_issue :
    (analyze_hardcoded_secrets (fun _ _ => true) s1SecretContent "secret.py").length = 0 := by
  decide

/-- Claim C3: evaluating the issue merge at the failing input.  The
existing map holds one analyzer issue; the AI envelope enhances that very
issue (same id).  The update branch reads `issue.ai_review_context` on a
`CodeIssue` that declares no such field, so the merge raises instead of
overwriting the six fields, and the claimed idempotent update never
happens. -/
theorem merge_enhanced_collision_raises :
    mergeIssues [issueLowPerf] [issueEnhSame] [] =
      .error "AttributeError: CodeIssue object has no attribute ai_review_context" := by
  rfl

/-- Claim C4, counterexample: merging a CRITICAL new AI issue into an
existing LOW issue stores the list in plain insertion order `[LOW,
CRITICAL]`; the claimed severity-descending order (CRITICAL first) is
violated, because the source never sorts `final_issues.values()`. -/
theorem merge_output_not_severity_sorted :
    mergeIssues [issueLowPerf] [] [issueNewCritical] = .ok [issueLowPerf, issueNewCritical] ∧
    severitySortedDesc [issueLowPerf, issueNewCritical] = false := by
  exact ⟨rfl, rfl⟩

/-- Claim C10: evaluating the Dockerfile analyzer at the failing input, a
Dockerfile with neither `CMD` nor `ENTRYPOINT`.  Building the claimed
MEDIUM issue accesses `IssueCategory.CORRECTNESS`, which the enum does
not define, so `analyze` raises an `AttributeError` instead of returning
the issue list and metrics. -/
theorem docker_missing_start_instruction_raises :
    docker_analyze trivialDockerOracles noStartDockerfile "Dockerfile" =
      .error "AttributeError: type object IssueCategory has no attribute CORRECTNESS" := by
  rfl

/-- Claim C9, counterexample: with severity counts (1, 1, 1, 1997) and
2000 total issues, the four independently rounded percentages are 0.0,
0.0, 0.0 and 99.8, summing to 99.8 — off by 0.2, outside the claimed
0.1 tolerance.  (CPython, whose `round` acts on binary floats, rounds
the three small buckets up instead and returns 100.2, violating the
claim in the other direction.) -/
theorem severity_percentages_violate_tolerance :
    ¬ (|severity_percentage 1 2000 + severity_percentage 1 2000 + severity_percentage 1 2000 +
        severity_percentage 1997 2000 - 100| ≤ 1/10) := by
  have h1 : roundHalfEven (1 * 1000) (max 2000 1) = 0 := by decide
  have h2 : roundHalfEven (1997 * 1000) (max 2000 1) = 998 := by decide
  unfold severity_percentage
  rw [h1, h2]
  norm_num
  rw [show |(1 : ℚ)/5| = 1/5 from abs_of_nonneg (by norm_num)]
  norm_num

theorem roundHalfEven_close (num den : ℕ) (hden : 0 < den) :
    |(roundHalfEven num den : ℚ) - (num : ℚ) / den| ≤ 1/2 := by
  have hden' : (0:ℚ) < (den:ℚ) := by exact_mod_cast hden
  have hdiv : (num : ℚ) / den = ((num / den : ℕ) : ℚ) + ((num % den : ℕ) : ℚ) / den := by
    field_simp
    exact_mod_cast (Nat.div_add_mod' num den).symm
  have hrlt : num % den < den := Nat.mod_lt num hden
  have hrlt' : ((num % den : ℕ) : ℚ) / den < 1 := by
    rw [div_lt_one hden']
    exact_mod_cast hrlt
  have hrge : (0:ℚ) ≤ ((num % den : ℕ) : ℚ) / den := by positivity
  unfold roundHalfEven
  by_cases h1 : 2 * (num % den) < den
  · rw [if_pos h1, hdiv]
    have hb : ((num % den : ℕ) : ℚ) / den < 1/2 := by
      rw [div_lt_iff hden']
      have : ((2 * (num % den) : ℕ) : ℚ) < (den : ℚ) := by exact_mod_cast h1
      push_cast at this
      linarith
    rw [show ((num / den : ℕ) : ℚ) - (((num / den : ℕ) : ℚ) + ((num % den : ℕ) : ℚ) / den) =
      -(((num % den : ℕ) : ℚ) / den) by ring, abs_neg, abs_of_nonneg hrge]
    linarith
  · by_cases h2 : den < 2 * (num % den)
    · rw [if_neg h1, if_pos h2, hdiv]
      have hb : (1:ℚ)/2 < ((num % den : ℕ) : ℚ) / den := by
        rw [lt_div_iff hden']
        have : (den : ℚ) < ((2 * (num % den) : ℕ) : ℚ) := by exact_mod_cast h2
        push_cast at this
        linarith
      push_cast
      rw [show ((num / den : ℕ) : ℚ) + 1 - (((num / den : ℕ) : ℚ) + ((num % den : ℕ) : ℚ) / den) =
        1 - ((num % den : ℕ) : ℚ) / den by ring, abs_of_nonneg (by linarith)]
      linarith
    · have h3 : 2 * (num % den) = den := le_antisymm (not_lt.mp h2) (not_lt.mp h1)
      have heq : ((num % den : ℕ) : ℚ) / den = 1/2 := by
        have hc : ((2 * (num % den) : ℕ) : ℚ) = (den : ℚ) := by exact_mod_cast congrArg Nat.cast h3
        push_cast at hc
        rw [div_eq_iff (ne_of_gt hden')]
        linarith
      rw [if_neg h1, if_neg h2, hdiv]
      by_cases h4 : (num / den) % 2 = 0
      · rw [if_pos h4]
        rw [show ((num / den : ℕ) : ℚ) - (((num / den : ℕ) : ℚ) + ((num % den : ℕ) : ℚ) / den) =
          -(((num % den : ℕ) : ℚ) / den) by ring, abs_neg, abs_of_nonneg hrge, heq]
      · rw [if_neg h4]
        push_cast
        rw [show ((num / den : ℕ) : ℚ) + 1 - (((num / den : ℕ) : ℚ) + ((num % den : ℕ) : ℚ) / den) =
          1 - ((num % den : ℕ) : ℚ) / den by ring, heq]
        rw [show |(1:ℚ) - 1/2| = 1/2 from by rw [abs_of_nonneg] <;> norm_num]

/-- Claim C9, amended: the four independently rounded percentages sum to
100.0 within a tolerance of 0.2 (each of the four roundings contributes
at most 0.05) whenever `total_issues > 0`, and are all exactly zero when
`total_issues = 0`.  The 0.1 tolerance of the claim is refuted above. -/
theorem severity_percentages_sum_bound (c1 c2 c3 c4 : ℕ) :
    (0 < c1 + c2 + c3 + c4 →
      |severity_percentage c1 (c1 + c2 + c3 + c4) + severity_percentage c2 (c1 + c2 + c3 + c4) +
        severity_percentage c3 (c1 + c2 + c3 + c4) + severity_percentage c4 (c1 + c2 + c3 + c4) -
        100| ≤ 1/5) ∧
    (c1 + c2 + c3 + c4 = 0 →
      severity_percentage c1 (c1 + c2 + c3 + c4) = 0 ∧
      severity_percentage c2 (c1 + c2 + c3 + c4) = 0 ∧
      severity_percentage c3 (c1 + c2 + c3 + c4) = 0 ∧
      severity_percentage c4 (c1 + c2 + c3 + c4) = 0) := by
  constructor
  · intro hn
    set n := c1 + c2 + c3 + c4 with hdefn
    have hn' : (0:ℚ) < (n:ℚ) := by exact_mod_cast hn
    have hmax : max n 1 = n := Nat.max_eq_left hn
    have key : ∀ c : ℕ, |severity_percentage c n - ((c : ℚ) * 1000 / n) / 10| ≤ 1/20 := by
      intro c
      unfold severity_percentage
      rw [hmax]
      have hclose := roundHalfEven_close (c * 1000) n hn
      have hcast : ((c * 1000 : ℕ) : ℚ) = (c : ℚ) * 1000 := by push_cast; ring
      rw [hcast] at hclose
      rw [show (roundHalfEven (c * 1000) n : ℚ) / 10 - ((c : ℚ) * 1000 / n) / 10 =
        ((roundHalfEven (c * 1000) n : ℚ) - (c : ℚ) * 1000 / n) / 10 by ring, abs_div,
        abs_of_nonneg (by norm_num : (0:ℚ) ≤ 10)]
      linarith
    have hsum : ((c1 : ℚ) * 1000 / n) / 10 + ((c2 : ℚ) * 1000 / n) / 10 +
        ((c3 : ℚ) * 1000 / n) / 10 + ((c4 : ℚ) * 1000 / n) / 10 = 100 := by
      have hne : (n:ℚ) ≠ 0 := ne_of_gt hn'
      field_simp
      have : ((n : ℕ) : ℚ) = (c1 : ℚ) + c2 + c3 + c4 := by rw [hdefn]; push_cast; ring
      linarith [this]
    have k1 := key c1
    have k2 := key c2
    have k3 := key c3
    have k4 := key c4
    rw [abs_le] at k1 k2 k3 k4 ⊢
    constructor <;> linarith [k1.1, k1.2, k2.1, k2.2, k3.1, k3.2, k4.1, k4.2]
  · intro h0
    have hc1 : c1 = 0 := by omega
    have hc2 : c2 = 0 := by omega
    have hc3 : c3 = 0 := by omega
    have hc4 : c4 = 0 := by omega
    subst hc1; subst hc2; subst hc3; subst hc4
    have hz : severity_percentage 0 (0 + 0 + 0 + 0) = 0 := by
      unfold severity_percentage
      rw [show roundHalfEven (0 * 1000) (max (0 + 0 + 0 + 0) 1) = 0 from by decide]
      norm_num
    exact ⟨hz, hz, hz, hz⟩

/-- Claim C9, witness: the amended bound applied at counts (1, 0, 0, 0),
where the lone percentage rounds to 100.0 exactly. -/
theorem severity_percentages_sum_bound_witness :
    |severity_percentage 1 (1 + 0 + 0 + 0) + severity_percentage 0 (1 + 0 + 0 + 0) +
      severity_percentage 0 (1 + 0 + 0 + 0) + severity_percentage 0 (1 + 0 + 0 + 0) - 100| ≤ 1/5 :=
  (severity_percentages_sum_bound 1 0 0 0).1 (by norm_num)

theorem alist_has_iff_mem_keys {β : Type} (k : String) (d : List (String × β)) :
    alist_has k d = true ↔ k ∈ alist_keys d := by
  induction d with
  | nil => simp [alist_has, alist_keys]
  | cons p rest ih =>
    simp only [alist_has, List.any_cons, Bool.or_eq_true, decide_eq_true_eq, alist_keys,
      List.map_cons, List.mem_cons] at *
    rw [ih]
    constructor
    · rintro (h | h)
      · exact Or.inl h.symm
      · exact Or.inr h
    · rintro (h | h)
      · exact Or.inl h.symm
      · exact Or.inr h

theorem alist_keys_upsert {β : Type} (k : String) (v : β) (d : List (String × β)) :
    alist_keys (alist_upsert k v d) = keyInsert (alist_keys d) k := by
  induction d with
  | nil => simp [alist_upsert, alist_keys, keyInsert]
  | cons p rest ih =>
    obtain ⟨k₀, v₀⟩ := p
    by_cases h : k₀ = k
    · subst h
      simp [alist_upsert, alist_keys, keyInsert]
    · have hne : ¬ k = k₀ := fun hk => h hk.symm
      by_cases hm : k ∈ alist_keys rest
      · simp [alist_upsert, alist_keys, keyInsert, h, hne, hm] at *
        simpa [keyInsert, hm] using ih
      · simp only [alist_upsert, if_neg h, alist_keys, List.map_cons] at *
        rw [ih]
        simp [keyInsert, hm, hne]

theorem wf_alist_upsert (d : IssueDict) (i : CodeIssue) (hwf : WfIssueDict d) :
    WfIssueDict (alist_upsert i.id i d) := by
  induction d with
  | nil =>
    intro p hp
    simp [alist_upsert] at hp
    subst hp
    rfl
  | cons q rest ih =>
    have hq := hwf q (by simp)
    have hrest : WfIssueDict rest := fun p hp => hwf p (by simp [hp])
    intro p hp
    by_cases h : q.1 = i.id
    · simp only [alist_upsert, if_pos h] at hp
      rcases List.mem_cons.mp hp with hp | hp
      · subst hp; exact h.symm
      · exact hwf p (by simp [hp])
    · simp only [alist_upsert, if_neg h] at hp
      rcases List.mem_cons.mp hp with hp | hp
      · subst hp; exact hq
      · exact ih hrest p hp

theorem wf_issueDictOf_aux (l : List CodeIssue) :
    ∀ d : IssueDict, WfIssueDict d →
      WfIssueDict (l.foldl (fun d i => alist_upsert i.id i d) d) := by
  induction l with
  | nil => intro d hd; simpa using hd
  | cons i rest ih =>
    intro d hd
    exact ih _ (wf_alist_upsert d i hd)

theorem wf_issueDictOf (l : List CodeIssue) : WfIssueDict (issueDictOf l) :=
  wf_issueDictOf_aux l [] (fun p hp => absurd hp (List.not_mem_nil p))

theorem keys_issueDictOf_aux (l : List CodeIssue) :
    ∀ d : IssueDict, alist_keys (l.foldl (fun d i => alist_upsert i.id i d) d) =
      (l.map (·.id)).foldl keyInsert (alist_keys d) := by
  induction l with
  | nil => intro d; rfl
  | cons i rest ih =>
    intro d
    simp only [List.foldl_cons, List.map_cons]
    rw [ih, alist_keys_upsert]

theorem keys_issueDictOf (l : List CodeIssue) :
    alist_keys (issueDictOf l) = (l.map (·.id)).foldl keyInsert [] :=
  keys_issueDictOf_aux l []

theorem newIssueStep_keys (d : IssueDict) (i : CodeIssue) :
    alist_keys (newIssueStep d i) = keyInsert (alist_keys d) i.id := by
  unfold newIssueStep keyInsert
  by_cases h : alist_has i.id d
  · rw [if_pos h, if_pos ((alist_has_iff_mem_keys i.id d).mp h)]
  · rw [if_neg h, if_neg (fun hm => h ((alist_has_iff_mem_keys i.id d).mpr hm))]
    simp [alist_keys]

theorem wf_newIssueStep (d : IssueDict) (i : CodeIssue) (hwf : WfIssueDict d) :
    WfIssueDict (newIssueStep d i) := by
  unfold newIssueStep
  by_cases h : alist_has i.id d
  · rw [if_pos h]; exact hwf
  · rw [if_neg h]
    intro p hp
    rcases List.mem_append.mp hp with hp | hp
    · exact hwf p hp
    · simp at hp; subst hp; rfl

theorem keys_newfold (new : List CodeIssue) :
    ∀ d : IssueDict, alist_keys (new.foldl newIssueStep d) =
      (new.map (·.id)).foldl keyInsert (alist_keys d) := by
  induction new with
  | nil => intro d; rfl
  | cons i rest ih =>
    intro d
    simp only [List.foldl_cons, List.map_cons]
    rw [ih, newIssueStep_keys]

theorem wf_newfold (new : List CodeIssue) :
    ∀ d : IssueDict, WfIssueDict d → WfIssueDict (new.foldl newIssueStep d) := by
  induction new with
  | nil => intro d hd; simpa using hd
  | cons i rest ih =>
    intro d hd
    exact ih _ (wf_newIssueStep d i hd)

theorem keys_enhfold (enh : List CodeIssue) :
    ∀ d d1 : IssueDict, enh.foldlM enhancedStep d = Except.ok d1 →
      alist_keys d1 = (enh.map (·.id)).foldl keyInsert (alist_keys d) ∧
      (WfIssueDict d → WfIssueDict d1) := by
  induction enh with
  | nil =>
    intro d d1 h
    injection h with h
    subst h
    exact ⟨rfl, id⟩
  | cons i rest ih =>
    intro d d1 h
    rw [List.foldlM_cons] at h
    cases h0 : enhancedStep d i with
    | error e =>
      rw [h0] at h
      exact Except.noConfusion (show (Except.error e : Except String IssueDict) = .ok d1 from h)
    | ok d0 =>
      rw [h0] at h
      have h : rest.foldlM enhancedStep d0 = Except.ok d1 := h
      unfold enhancedStep at h0
      by_cases hhas : alist_has i.id d
      · rw [if_pos hhas] at h0; cases h0
      · rw [if_neg hhas] at h0
        injection h0 with h0
        subst h0
        obtain ⟨hk, hw⟩ := ih _ _ h
        refine ⟨?_, fun hd => hw (wf_alist_upsert d i hd)⟩
        rw [hk, alist_keys_upsert]
        rfl

theorem values_map_id (d : IssueDict) (hwf : WfIssueDict d) :
    (alist_values d).map (·.id) = alist_keys d := by
  induction d with
  | nil => rfl
  | cons p rest ih =>
    have hp := hwf p (by simp)
    have hrest : WfIssueDict rest := fun q hq => hwf q (by simp [hq])
    simp only [alist_values, alist_keys, List.map_cons]
    rw [hp]
    have := ih hrest
    simp only [alist_values, alist_keys] at this
    rw [this]

/-- Claim C4, amended: whenever the merge completes (no enhanced-issue id
collides with a stored one), the stored `all_issues` list is in dict
insertion order — the deduplicated existing ids in first-occurrence
order, then the fresh ids of the envelope in arrival order.  No severity
ordering is applied anywhere. -/
theorem merge_preserves_insertion_order (ex enh new out : List CodeIssue)
    (h : mergeIssues ex enh new = .ok out) :
    out.map (·.id) = mergedIdOrder ex enh new := by
  unfold mergeIssues at h
  cases henh : enh.foldlM enhancedStep (issueDictOf ex) with
  | error e =>
    rw [henh] at h
    exact Except.noConfusion
      (show (Except.error e : Except String (List CodeIssue)) = .ok out from h)
  | ok d1 =>
    rw [henh] at h
    have h : Except.ok (alist_values (new.foldl newIssueStep d1)) = Except.ok out := h
    injection h with h
    obtain ⟨hkeys, hwfimp⟩ := keys_enhfold enh (issueDictOf ex) d1 henh
    have hwf1 : WfIssueDict d1 := hwfimp (wf_issueDictOf ex)
    have hwf2 : WfIssueDict (new.foldl newIssueStep d1) := wf_newfold new d1 hwf1
    rw [← h, values_map_id _ hwf2, keys_newfold, hkeys, keys_issueDictOf]
    rfl

/-- Claim C4, witness: the insertion-order characterization evaluated at
the concrete merge whose output is `[LOW, CRITICAL]`. -/
theorem merge_preserves_insertion_order_witness :
    ([issueLowPerf, issueNewCritical].map (·.id)) =
      mergedIdOrder [issueLowPerf] [] [issueNewCritical] :=
  merge_preserves_insertion_order [issueLowPerf] [] [issueNewCritical]
    [issueLowPerf, issueNewCritical] rfl

/-- Claim C7, amended: every block generated from the comprehensive
report content — both the markdown rendering and the fallback paragraph
rendering — has at most 1990 characters of content, obtained by
truncation (`[:1990]`), not by splitting; the blocks built from the
title, issues and fixes sections carry their content unmodified and are
not capped (see the counterexample below). -/
theorem comprehensive_blocks_capped (code : String) :
    (∀ b ∈ markdown_blocks code, b.content.length ≤ 1990) ∧
    (∀ b ∈ fallback_paragraph_blocks code, b.content.length ≤ 1990) := by
  constructor
  · intro b hb
    unfold markdown_blocks at hb
    rw [List.mem_flatMap] at hb
    obtain ⟨p, _, hbp⟩ := hb
    split at hbp
    · exact absurd hbp (List.not_mem_nil b)
    · split at hbp
      · split at hbp
        · rcases List.mem_singleton.mp hbp with rfl
          exact List.length_take_le 1990 _
        · rcases List.mem_singleton.mp hbp with rfl
          exact List.length_take_le 1990 _
      · split at hbp
        · rw [List.mem_filterMap] at hbp
          obtain ⟨bl, _, hsome⟩ := hbp
          split at hsome
          · cases hsome
          · rcases Option.some.injEq _ _ ▸ hsome with rfl
            exact List.length_take_le 1990 _
        · rcases List.mem_singleton.mp hbp with rfl
          exact List.length_take_le 1990 _
  · intro b hb
    unfold fallback_paragraph_blocks at hb
    rw [List.mem_filterMap] at hb
    obtain ⟨p, _, hsome⟩ := hb
    split at hsome
    · cases hsome
    · rcases Option.some.injEq _ _ ▸ hsome with rfl
      exact List.length_take_le 1990 _

/-- Claim C7, witness: the cap theorem applied to a one-paragraph content
string, whose single paragraph block it bounds. -/
theorem comprehensive_blocks_capped_witness :
    (Block.mk "paragraph" "hello").content.length ≤ 1990 :=
  (comprehensive_blocks_capped "hello").1 (Block.mk "paragraph" "hello") (by decide)

/-- Claim C7, counterexample: a report whose only issue description is
2000 characters long yields a bulleted-list block of 2000 characters —
the issues section applies no 1990 cap and no splitting, so the assembled
document violates the claimed hard rule. -/
theorem notion_issue_block_exceeds_limit :
    Block.mk "bulleted_list_item" bigIssueText ∈
      push_to_notion_children (fun _ => none) bigIssueReport ∧
    1990 < bigIssueText.length := by
  constructor
  · have h : push_to_notion_children (fun _ => none) bigIssueReport =
        [⟨"heading_1", "Code Review: f.py"⟩, ⟨"paragraph", " Severity: MEDIUM"⟩,
         ⟨"heading_2", "Key Issues"⟩, ⟨"bulleted_list_item", bigIssueText⟩] := by
      rfl
    rw [h]
    simp
  · show 1990 < (List.replicate 2000 'a').length
    rw [List.length_replicate]
    norm_num

theorem build_nodes_covers (deps : List (String × List String)) :
    ∀ seen : List String, ∀ k ∈ deps.map Prod.fst,
      k ∈ seen ∨ ∃ n ∈ build_nodes deps seen, n.id = k := by
  induction deps with
  | nil => intro seen k hk; exact absurd hk (List.not_mem_nil k)
  | cons p rest ih =>
    intro seen k hk
    obtain ⟨fp, imps⟩ := p
    rcases List.mem_cons.mp hk with hk | hk
    · subst hk
      by_cases hseen : k ∈ seen
      · rw [build_nodes, if_pos hseen]
        exact Or.inl hseen
      · rw [build_nodes, if_neg hseen]
        exact Or.inr ⟨mkGraphNode k imps, List.mem_cons_self _ _, rfl⟩
    · by_cases hseen : fp ∈ seen
      · rw [build_nodes, if_pos hseen]
        exact ih seen k hk
      · rw [build_nodes, if_neg hseen]
        rcases ih (fp :: seen) k hk with hs | ⟨n, hn, hid⟩
        · rcases List.mem_cons.mp hs with rfl | hs
          · exact Or.inr ⟨mkGraphNode k imps, List.mem_cons_self _ _, rfl⟩
          · exact Or.inl hs
        · exact Or.inr ⟨n, List.mem_cons_of_mem _ hn, hid⟩

/-- Claim C8, amended: every link the graph builder produces has both
endpoints among the node ids and value 1 (hence at least 1); but the
builder does not deduplicate links — a file that lists the same
resolvable import twice produces the same ordered (source, target) pair
twice within one edge class, refuting the no-duplicates part (see the counterexample
below). -/
theorem dependency_links_endpoints_and_value (deps : List (String × List String))
    (l : GraphLink) (hl : l ∈ (create_graph_structure deps).2) :
    (∃ n ∈ (create_graph_structure deps).1, n.id = l.source) ∧
    (∃ n ∈ (create_graph_structure deps).1, n.id = l.target) ∧
    1 ≤ l.value := by
  have hcover : ∀ k ∈ alist_keys deps, ∃ n ∈ build_nodes deps [], n.id = k := by
    intro k hk
    rcases build_nodes_covers deps [] k hk with hs | h
    · exact absurd hs (List.not_mem_nil k)
    · exact h
  unfold create_graph_structure build_links at hl ⊢
  rw [List.mem_flatMap] at hl
  obtain ⟨p, hp, hl2⟩ := hl
  rw [List.mem_filterMap] at hl2
  obtain ⟨t, _, heq⟩ := hl2
  split at heq
  · cases heq
  · rw [Option.map_eq_some'] at heq
    obtain ⟨tgt, hfind, rfl⟩ := heq
    refine ⟨?_, ?_, le_refl 1⟩
    · exact hcover p.1 (List.mem_map_of_mem Prod.fst hp)
    · exact hcover tgt (List.mem_of_find?_eq_some hfind)

/-- Claim C8, witness: endpoints and value of the link built from the
duplicate-import dependency dict. -/
theorem dependency_links_endpoints_and_value_witness :
    (∃ n ∈ (create_graph_structure dupImportDeps).1,
      n.id = (GraphLink.mk "a.js" "b.js" 1).source) ∧
    (∃ n ∈ (create_graph_structure dupImportDeps).1,
      n.id = (GraphLink.mk "a.js" "b.js" 1).target) ∧
    1 ≤ (GraphLink.mk "a.js" "b.js" 1).value :=
  dependency_links_endpoints_and_value dupImportDeps (GraphLink.mk "a.js" "b.js" 1) (by decide)

/-- Claim C8, counterexample: a file importing `./b.js` twice yields two
identical (source, target) links in the same edge class, so the link list
has a duplicate ordered pair. -/
theorem dependency_links_duplicate_pair :
    ¬ ((create_graph_structure dupImportDeps).2.map (fun l => (l.source, l.target))).Nodup := by
  decide

theorem observedStatus_zero (o : RunOutcome) (jid c now : String) :
    observedStatus o jid c now 0 = some .pending := by
  simp [observedStatus, storeAfter, submittedStore, add_job, alist_upsert, get_job,
    alist_lookup, pendingRecord]

theorem observedStatus_one (o : RunOutcome) (jid c now : String) :
    observedStatus o jid c now 1 = some .processing := by
  cases o <;>
    simp [observedStatus, storeAfter, workerUpdates, submittedStore, add_job, alist_upsert,
      update_job, alist_has, applyUpdate, get_job, alist_lookup, pendingRecord]

theorem observedStatus_ge_two (o : RunOutcome) (jid c now : String) (j : ℕ) :
    observedStatus o jid c now (j + 2) = some (terminalStatus o) := by
  have htake : (workerUpdates o now).take (j + 2) = workerUpdates o now :=
    List.take_of_length_le (by cases o <;> simp [workerUpdates])
  cases o <;>
    simp [observedStatus, storeAfter, htake, workerUpdates, submittedStore, add_job,
      alist_upsert, update_job, alist_has, applyUpdate, get_job, alist_lookup,
      pendingRecord, terminalStatus]

theorem trace_map_ge_two (o : RunOutcome) (jid c now : String) :
    ∀ j, (List.range (j + 3)).map (observedStatus o jid c now) =
      some .pending :: some .processing ::
        List.replicate (j + 1) (some (terminalStatus o)) := by
  intro j
  induction j with
  | zero =>
    rw [show List.range 3 = [0, 1, 2] from rfl]
    simp only [List.map_cons, List.map_nil, observedStatus_zero, observedStatus_one]
    rw [show observedStatus o jid c now 2 = some (terminalStatus o) from
      observedStatus_ge_two o jid c now 0]
    rfl
  | succ j ih =>
    rw [show j + 1 + 3 = (j + 3) + 1 from rfl, List.range_succ, List.map_append, ih]
    rw [show j + 3 = (j + 1) + 2 from rfl]
    simp only [List.map_cons, List.map_nil, observedStatus_ge_two]
    rw [show j + 1 + 1 = (j + 1) + 1 from rfl, List.replicate_succ' (j + 1)]
    simp

theorem compress_cons_replicate_self {α : Type} [DecidableEq α] (x : α) :
    ∀ m, compress (x :: List.replicate m x) = [x] := by
  intro m
  induction m with
  | zero => rfl
  | succ m ih =>
    rw [List.replicate_succ]
    show compress (x :: x :: List.replicate m x) = [x]
    rw [show compress (x :: x :: List.replicate m x) =
      if x = x then compress (x :: List.replicate m x)
      else x :: compress (x :: List.replicate m x) from rfl, if_pos rfl, ih]

theorem compress_two_then_replicate {α : Type} [DecidableEq α] (a b x : α)
    (hab : a ≠ b) (hbx : b ≠ x) (m : ℕ) :
    compress (a :: b :: List.replicate (m + 1) x) = [a, b, x] := by
  rw [List.replicate_succ]
  rw [show compress (a :: b :: x :: List.replicate m x) =
    if a = b then compress (b :: x :: List.replicate m x)
    else a :: compress (b :: x :: List.replicate m x) from rfl, if_neg hab]
  rw [show compress (b :: x :: List.replicate m x) =
    if b = x then compress (x :: List.replicate m x)
    else b :: compress (x :: List.replicate m x) from rfl, if_neg hbx]
  rw [compress_cons_replicate_self]

/-- Claim C1: for every worker outcome and any number of observation
points, the sequence of distinct statuses a poller can observe for a job
is a prefix of (PENDING, PROCESSING, X) with X the terminal status of the
run, and X is COMPLETED or FAILED.  The submission handler writes
PENDING, the worker first writes PROCESSING and then exactly one terminal
status, so the status never regresses and never skips PROCESSING. -/
theorem job_status_trace (o : RunOutcome) (jid created now : String) (k : ℕ) :
    observedTrace o jid created now k <+:
      [some .pending, some .processing, some (terminalStatus o)] ∧
    (terminalStatus o = .completed ∨ terminalStatus o = .failed) := by
  constructor
  · unfold observedTrace
    match k with
    | 0 =>
      rw [show List.range 1 = [0] from rfl]
      simp only [List.map_cons, List.map_nil, observedStatus_zero]
      exact ⟨[some .processing, some (terminalStatus o)], rfl⟩
    | 1 =>
      rw [show List.range 2 = [0, 1] from rfl]
      simp only [List.map_cons, List.map_nil, observedStatus_zero, observedStatus_one]
      rw [show compress [some JobStatus.pending, some JobStatus.processing] =
        [some JobStatus.pending, some JobStatus.processing] from by
          rw [show compress [some JobStatus.pending, some JobStatus.processing] =
            if (some JobStatus.pending = some JobStatus.processing) then
              compress [some JobStatus.processing]
            else some JobStatus.pending :: compress [some JobStatus.processing] from rfl,
            if_neg (by decide)]
          rfl]
      exact ⟨[some (terminalStatus o)], rfl⟩
    | (j + 2) =>
      rw [show j + 2 + 1 = j + 3 from rfl, trace_map_ge_two]
      have hbx : (some JobStatus.processing : Option JobStatus) ≠ some (terminalStatus o) := by
        cases o <;> simp [terminalStatus]
      rw [compress_two_then_replicate (some JobStatus.pending) (some JobStatus.processing)
        (some (terminalStatus o)) (by decide) hbx]
  · cases o <;> simp [terminalStatus]
